import Mathlib

/-!
Verification of the platform-resolution, version-probe and proxy-resolution
logic of tiny-runtime-injector (src/index.ts), shallowly embedded in Lean.
Strings are Lean `String`s; JavaScript string operations are modelled by
executable functions on `String.data` (lists of characters); functions that
`throw` are embedded as `Except String`.
-/

deriving instance DecidableEq for Except

/-- The closed enumeration of runtime kinds (`RuntimeType` in types.ts). -/
inductive RuntimeType
  | node
  | bun
  | uv
  | ripgrep
  | python
deriving DecidableEq

/-- The fixed ripgrep platform table `RIPGREP_PLATFORM`, keyed by
`{arch}-{platform}`; each entry carries a target triple and an archive
extension. -/
def RIPGREP_PLATFORM : List (String × String × String) :=
  [("x64-win32", "x86_64-pc-windows-msvc", "zip"),
   ("arm64-win32", "aarch64-pc-windows-msvc", "zip"),
   ("x64-linux", "x86_64-unknown-linux-musl", "tar.gz"),
   ("arm64-linux", "aarch64-unknown-linux-gnu", "tar.gz"),
   ("x64-darwin", "x86_64-apple-darwin", "tar.gz"),
   ("arm64-darwin", "aarch64-apple-darwin", "tar.gz")]

/-- Lookup of `RIPGREP_PLATFORM[platformKey]`. -/
def ripgrepPlatformLookup (key : String) : Option (String × String) :=
  (RIPGREP_PLATFORM.find? (fun e => e.1 = key)).map (fun e => e.2)

/-- Embedding of `getNodePlatformIdentifier` from src/index.ts. -/
def getNodePlatformIdentifier (platform arch : String) : Except String String :=
  if platform = "darwin" then
    .ok (if arch = "arm64" then "darwin-arm64" else "darwin-x64")
  else if platform = "linux" then
    if arch = "arm64" then .ok "linux-arm64"
    else if arch = "arm" ∨ arch = "armv7l" then .ok "linux-armv7l"
    else if arch = "ppc64" ∨ arch = "ppc64le" then .ok "linux-ppc64le"
    else if arch = "s390" ∨ arch = "s390x" then .ok "linux-s390x"
    else .ok "linux-x64"
  else if platform = "win32" then
    if arch = "arm64" then .ok "win-arm64"
    else if arch = "ia32" ∨ arch = "x86" then .ok "win-x86"
    else .ok "win-x64"
  else
    .error ("Unsupported platform: " ++ platform ++ "-" ++ arch)

/-- Embedding of `getBunPlatformIdentifier` from src/index.ts. -/
def getBunPlatformIdentifier (platform arch : String) : Except String String :=
  if platform = "darwin" then
    .ok (if arch = "arm64" then "darwin-aarch64" else "darwin-x64")
  else if platform = "linux" then
    .ok (if arch = "arm64" then "linux-aarch64" else "linux-x64")
  else if platform = "win32" then
    .ok (if arch = "arm64" then "windows-aarch64" else "windows-x64")
  else
    .error ("Unsupported platform for Bun: " ++ platform ++ "-" ++ arch)

/-- Embedding of `getUvPlatformIdentifier` from src/index.ts. -/
def getUvPlatformIdentifier (platform arch : String) : Except String String :=
  if platform = "darwin" then
    .ok (if arch = "arm64" then "aarch64-apple-darwin" else "x86_64-apple-darwin")
  else if platform = "linux" then
    if arch = "arm64" then .ok "aarch64-unknown-linux-gnu"
    else if arch = "x64" ∨ arch = "x86_64" then .ok "x86_64-unknown-linux-gnu"
    else if arch = "x86" ∨ arch = "ia32" then .ok "i686-unknown-linux-gnu"
    else if arch = "arm" ∨ arch = "armv7l" then .ok "armv7-unknown-linux-gnueabihf"
    else if arch = "ppc64" then .ok "powerpc64-unknown-linux-gnu"
    else if arch = "ppc64le" then .ok "powerpc64le-unknown-linux-gnu"
    else if arch = "s390x" then .ok "s390x-unknown-linux-gnu"
    else if arch = "riscv64" then .ok "riscv64gc-unknown-linux-gnu"
    else if arch = "arm64-musl" then .ok "aarch64-unknown-linux-musl"
    else if arch = "x64-musl" ∨ arch = "x86_64-musl" then .ok "x86_64-unknown-linux-musl"
    else if arch = "x86-musl" ∨ arch = "ia32-musl" then .ok "i686-unknown-linux-musl"
    else if arch = "arm-musl" then .ok "arm-unknown-linux-musleabihf"
    else if arch = "armv7-musl" then .ok "armv7-unknown-linux-musleabihf"
    else .ok "x86_64-unknown-linux-gnu"
  else if platform = "win32" then
    if arch = "arm64" then .ok "aarch64-pc-windows-msvc"
    else if arch = "x86" ∨ arch = "ia32" then .ok "i686-pc-windows-msvc"
    else .ok "x86_64-pc-windows-msvc"
  else
    .error ("Unsupported platform for uv: " ++ platform ++ "-" ++ arch)

/-- Embedding of `getRipgrepPlatformIdentifier` from src/index.ts. -/
def getRipgrepPlatformIdentifier (platform arch : String) : Except String String :=
  match ripgrepPlatformLookup (arch ++ "-" ++ platform) with
  | some cfg => .ok cfg.1
  | none => .error ("Unsupported platform for ripgrep: " ++ platform ++ "-" ++ arch)

/-- Embedding of `getPythonPlatformIdentifier` from src/index.ts. -/
def getPythonPlatformIdentifier (platform arch : String) : Except String String :=
  if platform = "darwin" then
    .ok (if arch = "arm64" then "aarch64-apple-darwin" else "x86_64-apple-darwin")
  else if platform = "linux" then
    if arch = "arm64" then .ok "aarch64-unknown-linux-gnu"
    else if arch = "x64" ∨ arch = "x86_64" then .ok "x86_64-unknown-linux-gnu"
    else .error ("Unsupported platform for Python: " ++ platform ++ "-" ++ arch ++
      ". Only x64 and arm64 are supported for Linux.")
  else if platform = "win32" then
    if arch = "x64" ∨ arch = "x86_64" then .ok "x86_64-pc-windows-msvc"
    else if arch = "arm64" then .ok "aarch64-pc-windows-msvc"
    else .error ("Unsupported platform for Python: " ++ platform ++ "-" ++ arch ++
      ". Only x64 and arm64 are supported for Windows.")
  else
    .error ("Unsupported platform for Python: " ++ platform ++ "-" ++ arch)

/-- The per-kind `getFileExtension` closures of `RUNTIME_CONFIGS` in
src/index.ts, gathered over the runtime kind. -/
def getFileExtension (t : RuntimeType) (platform arch : String) : Except String String :=
  match t with
  | .node => .ok (if platform = "win32" then "zip" else "tar.gz")
  | .bun => .ok "zip"
  | .uv => .ok (if platform = "win32" then "zip" else "tar.gz")
  | .ripgrep =>
    match ripgrepPlatformLookup (arch ++ "-" ++ platform) with
    | some cfg => .ok cfg.2
    | none => .error ("Unsupported platform for ripgrep: " ++ platform ++ "-" ++ arch)
  | .python => .ok "tar.gz"

/-- Embedding of `RUNTIME_CONFIGS.node.getDownloadUrl` from src/index.ts. -/
def nodeGetDownloadUrl (version platform arch : String) : Except String String :=
  match getNodePlatformIdentifier platform arch with
  | .error e => .error e
  | .ok platformId =>
    let fileExtension := if platform = "win32" then "zip" else "tar.gz"
    let fileName := "node-" ++ version ++ "-" ++ platformId ++ "." ++ fileExtension
    .ok ("https://nodejs.org/dist/" ++ version ++ "/" ++ fileName)

/-- The whitespace characters relevant to JavaScript's `\s` class and
`String.prototype.trim` on the ASCII inputs this program handles. -/
def isJsWhitespace (c : Char) : Bool :=
  c == ' ' || c == '\t' || c == '\n' || c == '\r' || c == '\x0b' || c == '\x0c'

/-- JavaScript `String.prototype.trim` on a character list. -/
def jsTrimList (l : List Char) : List Char :=
  ((l.dropWhile isJsWhitespace).reverse.dropWhile isJsWhitespace).reverse

/-- JavaScript `s.trim()`. -/
def jsTrim (s : String) : String := ⟨jsTrimList s.data⟩

/-- Substring containment on character lists: `containsSub needle haystack`. -/
def containsSub (needle : List Char) : List Char → Bool
  | [] => needle.isEmpty
  | c :: t => needle.isPrefixOf (c :: t) || containsSub needle t

/-- JavaScript `haystack.includes(needle)`. -/
def jsIncludes (haystack needle : String) : Bool := containsSub needle.data haystack.data

/-- Remove the first occurrence of character `c` from a list, if any. -/
def removeFirstChar (c : Char) : List Char → List Char
  | [] => []
  | a :: l => if a == c then l else a :: removeFirstChar c l

/-- JavaScript `version.replace("v", "")`: with a single-character string
pattern this removes the first occurrence of that character. -/
def jsReplaceFirstV (s : String) : String := ⟨removeFirstChar 'v' s.data⟩

/-- JavaScript `s.split(sep)` for a single-character separator string. -/
def jsSplit (sep : Char) (s : String) : List String :=
  (s.data.splitOnP (· == sep)).map (fun l => ⟨l⟩)

/-- Embedding of `isAlreadyInstalled`'s per-kind comparison of the version-command output
against the requested version (src/index.ts, the tail of
`RuntimeInjector.isAlreadyInstalled`): `stdout.trim()` is the actual
version, compared under a rule that depends on the runtime kind. -/
def isVersionMatch (t : RuntimeType) (version stdout : String) : Bool :=
  let actualVersion := jsTrim stdout
  match t with
  | .node => actualVersion = version
  | .bun => jsIncludes actualVersion (jsReplaceFirstV version)
  | .uv => jsIncludes actualVersion version
  | .ripgrep => jsIncludes actualVersion version
  | .python =>
    let pythonVersion :=
      if jsIncludes version "+" then (jsSplit '+' version).getD 0 "" else version
    jsIncludes actualVersion pythonVersion

/-- Embedding of `version.includes("+") ? version.split("+")[1] : "20250117"` from
`RUNTIME_CONFIGS.python.getDownloadUrl`. -/
def pythonReleaseDate (version : String) : String :=
  if jsIncludes version "+" then (jsSplit '+' version).getD 1 "" else "20250117"

/-- Embedding of `version.includes("+") ? version.split("+")[0] : version` from
`RUNTIME_CONFIGS.python.getDownloadUrl`. -/
def pythonSemver (version : String) : String :=
  if jsIncludes version "+" then (jsSplit '+' version).getD 0 "" else version

/-- Embedding of `RUNTIME_CONFIGS.python.getDownloadUrl` from src/index.ts. -/
def pythonGetDownloadUrl (version platform arch : String) : Except String String :=
  match getPythonPlatformIdentifier platform arch with
  | .error e => .error e
  | .ok platformTarget =>
    let releaseDate := pythonReleaseDate version
    let pythonVersion := pythonSemver version
    let fileName := "cpython-" ++ pythonVersion ++ "+" ++ releaseDate ++ "-" ++
      platformTarget ++ "-install_only.tar.gz"
    .ok ("https://github.com/astral-sh/python-build-standalone/releases/download/" ++
      releaseDate ++ "/" ++ fileName)

/-- The requested version with a leading lowercase `v` removed, when present:
the comparison rule the specification words ascribe to the Bun kind. -/
def stripLeadingV (v : String) : String :=
  match v.data with
  | 'v' :: rest => ⟨rest⟩
  | _ => v

/-- The part of a string strictly before the first `+`, the whole string when
no `+` occurs: the "semantic-version portion" in the specification's words. -/
def beforeFirstPlus (v : String) : String := ⟨v.data.takeWhile (· != '+')⟩

/-- The part of a string strictly after the first `+` (empty when no `+`
occurs): the release-date recovery rule in the specification's words. -/
def afterFirstPlus (v : String) : String := ⟨(v.data.dropWhile (· != '+')).drop 1⟩

/-- Split a character list at the first occurrence of `c`: the part before it
and, when `c` occurs, the part after it. -/
def splitFirstOnChar (c : Char) : List Char → List Char × Option (List Char)
  | [] => ([], none)
  | a :: t =>
    if a == c then ([], some t)
    else
      let r := splitFirstOnChar c t
      (a :: r.1, r.2)

/-- Split a character list at the last occurrence of `c`, when `c` occurs. -/
def splitLastOnChar (c : Char) (l : List Char) : Option (List Char × List Char) :=
  match splitFirstOnChar c l.reverse with
  | (_, none) => none
  | (afterRev, some beforeRev) => some (beforeRev.reverse, afterRev.reverse)

/-- Split a character list around the first occurrence of the pattern `pat`,
when it occurs. -/
def splitFirstOnSub (pat : List Char) : List Char → Option (List Char × List Char)
  | [] => none
  | a :: l =>
    if pat.isPrefixOf (a :: l) then some ([], (a :: l).drop pat.length)
    else
      match splitFirstOnSub pat l with
      | some (x, y) => some (a :: x, y)
      | none => none

/-- The observable components of a JavaScript `URL` object that this program
reads: `protocol` keeps its trailing colon, `port` is a (possibly empty)
digit string, and a missing userinfo is the empty string, as in WHATWG URL. -/
structure JsURL where
  protocol : String
  hostname : String
  port : String
  username : String
  password : String
deriving DecidableEq

/-- JavaScript `s.startsWith(t)`. -/
def jsStartsWith (s t : String) : Bool := t.data.isPrefixOf s.data

/-- The second element `l.split(pat)[1]` of a split on a multi-character
pattern: the text between the first and second occurrences of `pat` (up to
the end when there is no second occurrence), `none` when `pat` does not
occur at all. -/
def jsSplitSubSecond (pat l : List Char) : Option (List Char) :=
  match splitFirstOnSub pat l with
  | none => none
  | some (_, rest) =>
    match splitFirstOnSub pat rest with
    | none => some rest
    | some (x, _) => some x

/-- The `host` accessor of a `URL`: hostname plus `:port` when a port is
present. -/
def jsHost (u : JsURL) : String :=
  if u.port = "" then u.hostname else u.hostname ++ ":" ++ u.port

/-- Parse the host-and-port section of a URL authority: bracketed IPv6 hosts
keep their brackets; a port must be a digit string; an empty host is
rejected. -/
def parseHostPort (hp : List Char) : Option (String × String) :=
  match hp with
  | '[' :: rest =>
    match splitFirstOnChar ']' rest with
    | (inner, some after) =>
      let host : List Char := '[' :: (inner ++ [']'])
      match after with
      | [] => some (⟨host⟩, "")
      | ':' :: p => if p.all Char.isDigit then some (⟨host⟩, ⟨p⟩) else none
      | _ => none
    | (_, none) => none
  | _ =>
    match splitFirstOnChar ':' hp with
    | (h, none) => if h.isEmpty then none else some (⟨h.map Char.toLower⟩, "")
    | (h, some p) =>
      if h.isEmpty then none
      else if p.all Char.isDigit then some (⟨h.map Char.toLower⟩, ⟨p⟩) else none

/-- Model of the WHATWG `new URL(s)` constructor, restricted to the simple
`scheme://[user[:password]@]host[:port][/...]` shapes this program feeds it:
an alphabetic scheme followed by `://`, an authority read up to the first
slash, userinfo split at the last `@`, and a digits-only optional port.
Anything else is a parse failure (`none`, modelling the thrown `TypeError`). -/
def parseURL (s : String) : Option JsURL :=
  match splitFirstOnSub "://".data s.data with
  | none => none
  | some (scheme, rest) =>
    if scheme.isEmpty || !(scheme.all Char.isAlpha) then none
    else
      let authority := rest.takeWhile (· != '/')
      let parts :=
        match splitLastOnChar '@' authority with
        | some (u, h) => (some u, h)
        | none => (none, authority)
      match parseHostPort parts.2 with
      | none => none
      | some hostAndPort =>
        let creds :=
          match parts.1 with
          | none => ("", "")
          | some ui =>
            match splitFirstOnChar ':' ui with
            | (u, none) => ((⟨u⟩ : String), ("" : String))
            | (u, some pw) => ((⟨u⟩ : String), (⟨pw⟩ : String))
        some { protocol := (⟨scheme.map Char.toLower⟩ : String) ++ ":",
               hostname := hostAndPort.1, port := hostAndPort.2,
               username := creds.1, password := creds.2 }

/-- Embedding of `getDefaultPort` from src/index.ts. -/
def getDefaultPort (protocol : String) : Nat :=
  if protocol = "https:" then 443 else 80

/-- Lowercase a string character-wise (JavaScript `toLowerCase` on the ASCII
inputs this program handles). -/
def jsToLower (s : String) : String := ⟨s.data.map Char.toLower⟩

/-- JavaScript `s.endsWith(t)`. -/
def jsEndsWith (s t : String) : Bool := t.data.isSuffixOf s.data

/-- Embedding of `parseNoProxyEntry` from src/index.ts: trims the entry, strips a scheme
and a path, unwraps a bracketed IPv6 host, and splits off a `:port` suffix
exactly when the remaining text has a single colon. -/
def parseNoProxyEntry (entry : String) : String × Option String :=
  let value := jsTrim entry
  if value = "" then ("", none)
  else
    let value :=
      if jsIncludes value "://" then
        match parseURL value with
        | some u => jsHost u
        | none =>
          let fallback : String :=
            match jsSplitSubSecond ("://".data) value.data with
            | none => ""
            | some x => ⟨x⟩
          if fallback = "" then value else fallback
      else value
    let value := (jsSplit '/' value).getD 0 ""
    if jsStartsWith value "[" ∧ jsIncludes value "]" then
      let host := (value.data.takeWhile (· != ']')).drop 1
      let portValue := (value.data.dropWhile (· != ']')).drop 1
      match portValue with
      | ':' :: p => ((⟨host⟩ : String), some (⟨p⟩ : String))
      | _ => ((⟨host⟩ : String), none)
    else
      if (value.data.filter (· == ':')).length = 1 then
        ((⟨value.data.takeWhile (· != ':')⟩ : String),
         some (⟨(value.data.dropWhile (· != ':')).drop 1⟩ : String))
      else (value, none)

/-- The character class of the separator regex `[,\s]+` in `isNoProxyMatch`. -/
def isNoProxySep (c : Char) : Bool := c == ',' || isJsWhitespace c

/-- The entry list of `isNoProxyMatch`: the no-proxy string split on commas
and whitespace, trimmed, with empty entries dropped. -/
def noProxyEntries (noProxy : String) : List String :=
  (((noProxy.data.splitOnP isNoProxySep).map jsTrimList).filter
    (fun l => !l.isEmpty)).map (fun l => (⟨l⟩ : String))

/-- Does the string start with `.` or `*` (the regex test `/^[.*]/`)? -/
def startsWithDotOrStar (s : String) : Bool :=
  match s.data with
  | [] => false
  | c :: _ => c == '.' || c == '*'

/-- Does the string start with `*`? -/
def startsWithStar (s : String) : Bool :=
  match s.data with
  | '*' :: _ => true
  | _ => false

/-- The effective port of the target URL in `isNoProxyMatch`:
`targetUrl.port || String(getDefaultPort(targetUrl.protocol))`. -/
def effectivePort (u : JsURL) : String :=
  if u.port ≠ "" then u.port else toString (getDefaultPort u.protocol)

/-- The loop body of `isNoProxyMatch` for one entry, against the target's
lowercased hostname and effective port; `continue` becomes `false`. -/
def noProxyEntryMatches (hostname port entry : String) : Bool :=
  if entry = "*" then true
  else
    let pe := parseNoProxyEntry entry
    let host := pe.1
    if host = "" then false
    else
      let portBad :=
        match pe.2 with
        | some p => p != "" && p != port
        | none => false
      if portBad then false
      else
        let normalizedHost := jsToLower host
        if normalizedHost = "" then false
        else if !(startsWithDotOrStar normalizedHost) then hostname = normalizedHost
        else
          let matchHost :=
            if startsWithStar normalizedHost then (⟨normalizedHost.data.drop 1⟩ : String)
            else normalizedHost
          jsEndsWith hostname matchHost

/-- Embedding of `isNoProxyMatch` from src/index.ts. -/
def isNoProxyMatch (targetUrl : JsURL) (noProxy : String) : Bool :=
  let entries := noProxyEntries noProxy
  if entries.isEmpty then false
  else if entries.contains "*" then true
  else
    let hostname := jsToLower targetUrl.hostname
    let port := effectivePort targetUrl
    entries.any (noProxyEntryMatches hostname port)

/-- The anchored scheme test `/^[a-z]+:\/\//i.test(proxyUrl)` from
`normalizeProxyUrl`. -/
def hasSchemeMark (s : String) : Bool :=
  let letters := s.data.takeWhile Char.isAlpha
  !letters.isEmpty && ("://".data.isPrefixOf (s.data.drop letters.length))

/-- Embedding of `normalizeProxyUrl` from src/index.ts. -/
def normalizeProxyUrl (proxyUrl fallbackProtocol : String) : String :=
  if hasSchemeMark proxyUrl then proxyUrl
  else
    (if jsEndsWith fallbackProtocol ":" then fallbackProtocol
     else fallbackProtocol ++ ":") ++ "//" ++ proxyUrl

/-- JavaScript `Number(s)` on the digit strings a URL port can hold: the
numeric value, or `none` (NaN) when a non-digit occurs. -/
def jsNumberNat (s : String) : Option Nat :=
  s.data.foldl
    (fun acc c =>
      match acc with
      | none => none
      | some n => if c.isDigit then some (n * 10 + (c.toNat - 48)) else none)
    (some 0)

/-- The optional credentials of a proxy configuration. -/
structure ProxyAuth where
  username : String
  password : String
deriving DecidableEq

/-- The `ProxyConfig` record of src/index.ts. -/
structure ProxyConfig where
  protocol : String
  host : String
  port : Nat
  auth : Option ProxyAuth
deriving DecidableEq

/-- Embedding of `buildProxyConfig` from src/index.ts. -/
def buildProxyConfig (proxyUrl fallbackProtocol : String) : Except String ProxyConfig :=
  let normalizedUrl := normalizeProxyUrl proxyUrl fallbackProtocol
  match parseURL normalizedUrl with
  | none => .error ("Invalid proxy URL: " ++ proxyUrl)
  | some parsed =>
    if parsed.protocol ≠ "http:" ∧ parsed.protocol ≠ "https:" then
      .error ("Unsupported proxy protocol: " ++ parsed.protocol)
    else
      let port? :=
        if parsed.port ≠ "" then jsNumberNat parsed.port
        else some (getDefaultPort parsed.protocol)
      match port? with
      | none => .error ("Invalid proxy port in URL: " ++ proxyUrl)
      | some port =>
        .ok { protocol := parsed.protocol, host := parsed.hostname, port := port,
              auth :=
                if parsed.username ≠ "" ∨ parsed.password ≠ "" then
                  some { username := parsed.username, password := parsed.password }
                else none }

/-- The three proxy-related fields of `RuntimeOptions`; a missing option is
`none`. -/
structure ProxyOptions where
  httpProxy : Option String
  httpsProxy : Option String
  noProxy : Option String
deriving DecidableEq

/-- The keys of `PROXY_ENV_KEYS` in src/index.ts. -/
inductive ProxyKey
  | httpProxy
  | httpsProxy
  | noProxy
deriving DecidableEq

/-- Embedding of `PROXY_ENV_KEYS` from src/index.ts: upper-case variant first. -/
def PROXY_ENV_KEYS : ProxyKey → List String
  | .httpProxy => ["HTTP_PROXY", "http_proxy"]
  | .httpsProxy => ["HTTPS_PROXY", "https_proxy"]
  | .noProxy => ["NO_PROXY", "no_proxy"]

/-- Embedding of `this.options[key]` for the three proxy option fields. -/
def optField (o : ProxyOptions) : ProxyKey → Option String
  | .httpProxy => o.httpProxy
  | .httpsProxy => o.httpsProxy
  | .noProxy => o.noProxy

/-- JavaScript truthiness of an optional string: present and non-empty. -/
def truthy : Option String → Bool
  | some v => v ≠ ""
  | none => false

/-- Embedding of `getEnvValue` from src/index.ts, over an explicit environment. -/
def getEnvValue (env : String → Option String) : List String → Option String
  | [] => none
  | k :: rest =>
    match env k with
    | some v => if v ≠ "" then some v else getEnvValue env rest
    | none => getEnvValue env rest

/-- Embedding of `RuntimeInjector.getProxyOption` from src/index.ts. -/
def getProxyOption (o : ProxyOptions) (env : String → Option String)
    (key : ProxyKey) : Option String :=
  if truthy (optField o key) then optField o key
  else getEnvValue env (PROXY_ENV_KEYS key)

/-- Embedding of `RuntimeInjector.getProxyConfigForUrl` from src/index.ts, taking the
already-parsed target URL; `.ok none` is the `undefined` (direct connection)
result. -/
def getProxyConfigForUrl (o : ProxyOptions) (env : String → Option String)
    (parsedUrl : JsURL) : Except String (Option ProxyConfig) :=
  let noProxy := getProxyOption o env .noProxy
  if truthy noProxy && isNoProxyMatch parsedUrl (noProxy.getD "") then .ok none
  else
    let proxyUrl :=
      if parsedUrl.protocol = "https:" then getProxyOption o env .httpsProxy
      else getProxyOption o env .httpProxy
    if !(truthy proxyUrl) then .ok none
    else (buildProxyConfig (proxyUrl.getD "") parsedUrl.protocol).map (fun c => some c)

/-- The explicit Linux architecture aliases of `getUvPlatformIdentifier`
paired with their Rust target triples, as enumerated by the claim. -/
def uvLinuxAliasPairs : List (String × String) :=
  [("arm64", "aarch64-unknown-linux-gnu"),
   ("x64", "x86_64-unknown-linux-gnu"), ("x86_64", "x86_64-unknown-linux-gnu"),
   ("x86", "i686-unknown-linux-gnu"), ("ia32", "i686-unknown-linux-gnu"),
   ("arm", "armv7-unknown-linux-gnueabihf"), ("armv7l", "armv7-unknown-linux-gnueabihf"),
   ("ppc64", "powerpc64-unknown-linux-gnu"), ("ppc64le", "powerpc64le-unknown-linux-gnu"),
   ("s390x", "s390x-unknown-linux-gnu"), ("riscv64", "riscv64gc-unknown-linux-gnu"),
   ("arm64-musl", "aarch64-unknown-linux-musl"),
   ("x64-musl", "x86_64-unknown-linux-musl"), ("x86_64-musl", "x86_64-unknown-linux-musl"),
   ("x86-musl", "i686-unknown-linux-musl"), ("ia32-musl", "i686-unknown-linux-musl"),
   ("arm-musl", "arm-unknown-linux-musleabihf"),
   ("armv7-musl", "armv7-unknown-linux-musleabihf")]

/-- C1 counterexample: the claim says the Bun kind returns `tar.gz` for every
operating system other than win32, but the Bun extension closure is the
constant `"zip"`: on linux it still returns `zip`. -/
theorem c1_counterexample :
    getFileExtension RuntimeType.bun "linux" "x64" = Except.ok "zip" ∧
    getFileExtension RuntimeType.bun "linux" "x64" ≠ Except.ok "tar.gz" := by
  decide

/-- C1 (amended): the per-kind archive-extension rule. Node and uv return
`zip` exactly on win32 and `tar.gz` for every other operating system; Bun
returns `zip` for every (os, arch); Python returns `tar.gz` for every
(os, arch); ripgrep returns exactly the extension stored in its fixed
platform table and fails for any `{arch}-{os}` key absent from that table. -/
theorem c1_archive_extension_rule :
    (∀ platform arch : String,
      getFileExtension RuntimeType.node platform arch =
        Except.ok (if platform = "win32" then "zip" else "tar.gz") ∧
      getFileExtension RuntimeType.uv platform arch =
        Except.ok (if platform = "win32" then "zip" else "tar.gz") ∧
      getFileExtension RuntimeType.bun platform arch = Except.ok "zip" ∧
      getFileExtension RuntimeType.python platform arch = Except.ok "tar.gz") ∧
    (∀ platform arch target ext : String,
      (arch ++ "-" ++ platform, target, ext) ∈ RIPGREP_PLATFORM →
      getFileExtension RuntimeType.ripgrep platform arch = Except.ok ext) ∧
    (∀ platform arch : String,
      (∀ e ∈ RIPGREP_PLATFORM, e.1 ≠ arch ++ "-" ++ platform) →
      getFileExtension RuntimeType.ripgrep platform arch =
        Except.error ("Unsupported platform for ripgrep: " ++ platform ++ "-" ++ arch)) := by
  refine ⟨fun platform arch => ⟨rfl, rfl, rfl, rfl⟩, ?_, ?_⟩
  · intro platform arch target ext hmem
    simp only [RIPGREP_PLATFORM, List.mem_cons, List.not_mem_nil, or_false,
      Prod.mk.injEq] at hmem
    rcases hmem with ⟨hk, -, he⟩ | ⟨hk, -, he⟩ | ⟨hk, -, he⟩ | ⟨hk, -, he⟩ |
      ⟨hk, -, he⟩ | ⟨hk, -, he⟩ <;> subst he <;>
      simp only [getFileExtension, ripgrepPlatformLookup, hk] <;> rfl
  · intro platform arch h
    have hnone : RIPGREP_PLATFORM.find? (fun e => e.1 = arch ++ "-" ++ platform) = none := by
      rw [List.find?_eq_none]
      intro x hx
      simpa using h x hx
    simp [getFileExtension, ripgrepPlatformLookup, hnone]

/-- C1 witness: the amended rule evaluated at concrete platforms, including a
ripgrep key present in the table and one absent from it. -/
theorem c1_witness :
    getFileExtension RuntimeType.node "linux" "x64" = Except.ok "tar.gz" ∧
    getFileExtension RuntimeType.ripgrep "darwin" "arm64" = Except.ok "tar.gz" ∧
    getFileExtension RuntimeType.ripgrep "win32" "x86" =
      Except.error "Unsupported platform for ripgrep: win32-x86" := by
  refine ⟨?_, ?_, ?_⟩
  · have h := (c1_archive_extension_rule.1 "linux" "x64").1
    simpa using h
  · exact c1_archive_extension_rule.2.1 "darwin" "arm64" "aarch64-apple-darwin" "tar.gz"
      (by decide)
  · have h := c1_archive_extension_rule.2.2 "win32" "x86" (by decide)
    simpa using h

/-- C3: on linux, the uv resolver maps each explicitly listed architecture
alias (GNU and MUSL) to its explicit Rust target triple, and maps every
other architecture string to exactly `x86_64-unknown-linux-gnu` without
raising an error. -/
theorem c3_uv_linux_resolution :
    (∀ p ∈ uvLinuxAliasPairs, getUvPlatformIdentifier "linux" p.1 = Except.ok p.2) ∧
    (∀ arch : String, arch ∉ uvLinuxAliasPairs.map Prod.fst →
      getUvPlatformIdentifier "linux" arch = Except.ok "x86_64-unknown-linux-gnu") := by
  constructor
  · decide
  · intro arch h
    simp only [uvLinuxAliasPairs, List.map_cons, List.map_nil, List.mem_cons,
      List.not_mem_nil, or_false, not_or] at h
    obtain ⟨h1, h2, h3, h4, h5, h6, h7, h8, h9, h10, h11, h12, h13, h14, h15, h16,
      h17, h18⟩ := h
    simp [getUvPlatformIdentifier, h1, h2, h3, h4, h5, h6, h7, h8, h9, h10, h11,
      h12, h13, h14, h15, h16, h17, h18]

/-- C3 witness: an alias from the table and an unrecognized architecture,
which silently falls back to the generic x64 GNU triple. -/
theorem c3_witness :
    getUvPlatformIdentifier "linux" "x64-musl" = Except.ok "x86_64-unknown-linux-musl" ∧
    getUvPlatformIdentifier "linux" "mips64" = Except.ok "x86_64-unknown-linux-gnu" :=
  ⟨c3_uv_linux_resolution.1 ("x64-musl", "x86_64-unknown-linux-musl") (by decide),
   c3_uv_linux_resolution.2 "mips64" (by decide)⟩

/-- C4: the Python resolver fails with an error for every architecture other
than x64/x86_64/arm64 on linux and on win32, and succeeds for x64 and arm64
on darwin, linux and win32. -/
theorem c4_python_platform_support :
    (∀ arch : String, arch ∉ ["x64", "x86_64", "arm64"] →
      getPythonPlatformIdentifier "linux" arch =
        Except.error ("Unsupported platform for Python: linux-" ++ arch ++
          ". Only x64 and arm64 are supported for Linux.") ∧
      getPythonPlatformIdentifier "win32" arch =
        Except.error ("Unsupported platform for Python: win32-" ++ arch ++
          ". Only x64 and arm64 are supported for Windows.")) ∧
    (∀ pl ∈ ["darwin", "linux", "win32"], ∀ arch ∈ ["x64", "arm64"],
      (getPythonPlatformIdentifier pl arch).isOk = true) := by
  constructor
  · intro arch h
    simp only [List.mem_cons, List.not_mem_nil, or_false, not_or] at h
    obtain ⟨h1, h2, h3⟩ := h
    constructor <;> simp [getPythonPlatformIdentifier, h1, h2, h3]
  · decide

/-- C4 witness: a rejected architecture on linux and win32, and an accepted
one on each operating system. -/
theorem c4_witness :
    getPythonPlatformIdentifier "linux" "ia32" =
      Except.error "Unsupported platform for Python: linux-ia32. Only x64 and arm64 are supported for Linux." ∧
    (getPythonPlatformIdentifier "win32" "arm64").isOk = true := by
  constructor
  · have h := (c4_python_platform_support.1 "ia32" (by decide)).1
    simpa using h
  · exact c4_python_platform_support.2 "win32" (by decide) "arm64" (by decide)

/-- C10: on darwin the Python resolver never fails: every architecture other
than `arm64`, including arbitrary unrecognized strings, maps silently to
`x86_64-apple-darwin` (and `arm64` to `aarch64-apple-darwin`), in contrast
with the hard failure for an unrecognized architecture on linux and win32. -/
theorem c10_python_darwin_silent_fallback :
    (∀ arch : String, arch ≠ "arm64" →
      getPythonPlatformIdentifier "darwin" arch = Except.ok "x86_64-apple-darwin") ∧
    getPythonPlatformIdentifier "darwin" "arm64" = Except.ok "aarch64-apple-darwin" ∧
    (getPythonPlatformIdentifier "linux" "completely-unknown-arch").isOk = false ∧
    (getPythonPlatformIdentifier "win32" "completely-unknown-arch").isOk = false := by
  refine ⟨?_, by decide, by decide, by decide⟩
  intro arch h
  simp [getPythonPlatformIdentifier, h]

/-- C10 witness: the darwin fallback evaluated at an arbitrary unrecognized
architecture string. -/
theorem c10_witness :
    getPythonPlatformIdentifier "darwin" "completely-unknown-arch" =
      Except.ok "x86_64-apple-darwin" :=
  c10_python_darwin_silent_fallback.1 "completely-unknown-arch" (by decide)

/-- C6: the Node resolver implements exactly the claimed alias table —
darwin arm64 / default x64; linux arm64, arm/armv7l, ppc64/ppc64le,
s390/s390x, default x64; win32 arm64, ia32/x86, default x64; any other
operating system fails — and the download URL for (v24.12.0, linux, x64)
is the expected nodejs.org URL. -/
theorem c6_node_platform_table :
    (getNodePlatformIdentifier "darwin" "arm64" = Except.ok "darwin-arm64") ∧
    (∀ arch : String, arch ≠ "arm64" →
      getNodePlatformIdentifier "darwin" arch = Except.ok "darwin-x64") ∧
    (getNodePlatformIdentifier "linux" "arm64" = Except.ok "linux-arm64") ∧
    (∀ p ∈ [("arm", "linux-armv7l"), ("armv7l", "linux-armv7l"),
        ("ppc64", "linux-ppc64le"), ("ppc64le", "linux-ppc64le"),
        ("s390", "linux-s390x"), ("s390x", "linux-s390x")],
      getNodePlatformIdentifier "linux" p.1 = Except.ok p.2) ∧
    (∀ arch : String, arch ∉ ["arm64", "arm", "armv7l", "ppc64", "ppc64le", "s390", "s390x"] →
      getNodePlatformIdentifier "linux" arch = Except.ok "linux-x64") ∧
    (getNodePlatformIdentifier "win32" "arm64" = Except.ok "win-arm64") ∧
    (getNodePlatformIdentifier "win32" "ia32" = Except.ok "win-x86") ∧
    (getNodePlatformIdentifier "win32" "x86" = Except.ok "win-x86") ∧
    (∀ arch : String, arch ∉ ["arm64", "ia32", "x86"] →
      getNodePlatformIdentifier "win32" arch = Except.ok "win-x64") ∧
    (∀ platform arch : String, platform ∉ ["darwin", "linux", "win32"] →
      getNodePlatformIdentifier platform arch =
        Except.error ("Unsupported platform: " ++ platform ++ "-" ++ arch)) ∧
    nodeGetDownloadUrl "v24.12.0" "linux" "x64" =
      Except.ok "https://nodejs.org/dist/v24.12.0/node-v24.12.0-linux-x64.tar.gz" := by
  refine ⟨by decide, ?_, by decide, by decide, ?_, by decide, by decide, by decide,
    ?_, ?_, by decide⟩
  · intro arch h
    simp [getNodePlatformIdentifier, h]
  · intro arch h
    simp only [List.mem_cons, List.not_mem_nil, or_false, not_or] at h
    obtain ⟨h1, h2, h3, h4, h5, h6, h7⟩ := h
    simp [getNodePlatformIdentifier, h1, h2, h3, h4, h5, h6, h7]
  · intro arch h
    simp only [List.mem_cons, List.not_mem_nil, or_false, not_or] at h
    obtain ⟨h1, h2, h3⟩ := h
    simp [getNodePlatformIdentifier, h1, h2, h3]
  · intro platform arch h
    simp only [List.mem_cons, List.not_mem_nil, or_false, not_or] at h
    obtain ⟨h1, h2, h3⟩ := h
    simp [getNodePlatformIdentifier, h1, h2, h3]

/-- C6 witness: the default branches and the failure branch evaluated at
concrete inputs. -/
theorem c6_witness :
    getNodePlatformIdentifier "darwin" "x64" = Except.ok "darwin-x64" ∧
    getNodePlatformIdentifier "linux" "riscv64" = Except.ok "linux-x64" ∧
    getNodePlatformIdentifier "win32" "x64" = Except.ok "win-x64" ∧
    getNodePlatformIdentifier "sunos" "x64" =
      Except.error "Unsupported platform: sunos-x64" := by
  refine ⟨c6_node_platform_table.2.1 "x64" (by decide),
    c6_node_platform_table.2.2.2.2.1 "riscv64" (by decide),
    c6_node_platform_table.2.2.2.2.2.2.2.2.1 "x64" (by decide), ?_⟩
  have h := c6_node_platform_table.2.2.2.2.2.2.2.2.2.1 "sunos" "x64" (by decide)
  simpa using h

theorem containsSub_eq_true_iff {n l : List Char} : containsSub n l = true ↔ n <:+: l := by
  induction l with
  | nil => simp [containsSub, List.isEmpty_iff]
  | cons c t ih => simp [containsSub, ih, List.infix_cons_iff]

theorem jsIncludes_eq_true_iff {h n : String} :
    jsIncludes h n = true ↔ n.data <:+: h.data := containsSub_eq_true_iff

theorem singleton_infix_iff {c : Char} {l : List Char} : [c] <:+: l ↔ c ∈ l := by
  constructor
  · rintro ⟨s, t, rfl⟩
    simp
  · intro h
    obtain ⟨s, t, rfl⟩ := List.append_of_mem h
    exact ⟨s, t, by simp⟩

theorem takeWhile_all {p : Char → Bool} {l : List Char} (h : ∀ x ∈ l, p x) :
    l.takeWhile p = l := by
  induction l with
  | nil => rfl
  | cons c t ih =>
    rw [List.takeWhile_cons, if_pos (h c (List.mem_cons_self c t))]
    rw [ih (fun x hx => h x (List.mem_cons_of_mem c hx))]

theorem splitOnP_head (p : Char → Bool) (l : List Char) :
    (l.splitOnP p).getD 0 [] = l.takeWhile (fun c => !p c) := by
  induction l with
  | nil => simp [List.splitOnP_nil]
  | cons c t ih =>
    rcases hsp : t.splitOnP p with _ | ⟨a, as⟩
    · exact absurd hsp (List.splitOnP_ne_nil p t)
    · rw [hsp] at ih
      by_cases h : p c
      · simp [List.splitOnP_cons, h, List.takeWhile_cons]
      · simp only [List.splitOnP_cons, h, List.takeWhile_cons, Bool.not_false,
          if_neg, if_pos, hsp, List.modifyHead, List.getD_cons_zero] at ih ⊢
        simp [ih]

theorem splitOnP_plus_append (sv rest : String) (h : '+' ∉ sv.data) :
    (sv ++ "+" ++ rest).data.splitOnP (fun c => c == '+') =
      sv.data :: rest.data.splitOnP (fun c => c == '+') := by
  have hdata : (sv ++ "+" ++ rest).data = sv.data ++ '+' :: rest.data := by
    rw [String.data_append, String.data_append]
    rw [show ("+" : String).data = ['+'] from rfl]
    simp
  rw [hdata]
  refine List.splitOnP_first (fun c => c == '+') sv.data ?_ '+' (by simp) rest.data
  intro x hx heq
  exact h ((eq_of_beq heq) ▸ hx)

theorem pythonSemver_eq_beforeFirstPlus (v : String) :
    pythonSemver v = beforeFirstPlus v := by
  by_cases h : jsIncludes v "+" = true
  · rw [pythonSemver, if_pos h]
    rcases hsp : v.data.splitOnP (fun c => c == '+') with _ | ⟨a, as⟩
    · exact absurd hsp (List.splitOnP_ne_nil _ _)
    · have hh := splitOnP_head (fun c => c == '+') v.data
      rw [hsp, List.getD_cons_zero] at hh
      simp only [jsSplit, hsp, List.map_cons, List.getD_cons_zero, beforeFirstPlus]
      rw [hh]
      rfl
  · rw [pythonSemver, if_neg h]
    have hmem : '+' ∉ v.data := fun hc =>
      h (jsIncludes_eq_true_iff.mpr (singleton_infix_iff.mpr hc))
    rw [beforeFirstPlus]
    have ht : v.data.takeWhile (fun c => c != '+') = v.data :=
      takeWhile_all (fun x hx => by
        simp only [bne_iff_ne, ne_eq, decide_eq_true_eq]
        exact fun heq => hmem (heq ▸ hx))
    rw [ht]

theorem data_plus_append (sv rest : String) :
    (sv ++ "+" ++ rest).data = sv.data ++ '+' :: rest.data := by
  rw [String.data_append, String.data_append]
  rw [show ("+" : String).data = ['+'] from rfl]
  simp

theorem takeWhile_append_stop {p : Char → Bool} {l : List Char} {c : Char}
    (hall : ∀ x ∈ l, p x) (hc : p c = false) (ys : List Char) :
    (l ++ c :: ys).takeWhile p = l := by
  induction l with
  | nil => simp [List.takeWhile_cons, hc]
  | cons a t ih =>
    rw [List.cons_append, List.takeWhile_cons, if_pos (hall a (List.mem_cons_self a t))]
    rw [ih (fun x hx => hall x (List.mem_cons_of_mem a hx))]

theorem pythonSemver_append (sv rest : String) (h : '+' ∉ sv.data) :
    pythonSemver (sv ++ "+" ++ rest) = sv := by
  rw [pythonSemver_eq_beforeFirstPlus, beforeFirstPlus, data_plus_append]
  rw [takeWhile_append_stop ?_ (by simp) rest.data]
  · intro x hx
    simp only [bne_iff_ne, ne_eq, decide_eq_true_eq]
    exact fun heq => h (heq ▸ hx)

theorem pythonReleaseDate_append (sv rest : String) (h : '+' ∉ sv.data) :
    pythonReleaseDate (sv ++ "+" ++ rest) = beforeFirstPlus rest := by
  have hinc : jsIncludes (sv ++ "+" ++ rest) "+" = true := by
    apply jsIncludes_eq_true_iff.mpr
    apply singleton_infix_iff.mpr
    rw [data_plus_append]
    simp
  rw [pythonReleaseDate, if_pos hinc]
  have hs := splitOnP_plus_append sv rest h
  rcases hsp : rest.data.splitOnP (fun c => c == '+') with _ | ⟨a, as⟩
  · exact absurd hsp (List.splitOnP_ne_nil _ _)
  · have hh := splitOnP_head (fun c => c == '+') rest.data
    rw [hsp, List.getD_cons_zero] at hh
    rw [hsp] at hs
    simp only [jsSplit, hs, List.map_cons, List.getD_cons_succ, List.getD_cons_zero]
    rw [hh, beforeFirstPlus]
    rfl

/-- C2 counterexample: for the Bun kind the code removes the *first*
occurrence of `v` from the requested version, not specifically a leading
`v`: with requested version `avb` (no leading `v`) and output `ab`, the
probe reports a match although the output does not contain the version with
its leading `v` removed. -/
theorem c2_counterexample :
    isVersionMatch RuntimeType.bun "avb" "ab" = true ∧
    stripLeadingV "avb" = "avb" ∧
    jsIncludes (jsTrim "ab") (stripLeadingV "avb") = false := by
  decide

/-- C2 (amended): the installed-version probe compares the trimmed
version-command output per kind: Node requires exact equality with the
requested version; Bun requires the output to contain the requested version
with the first occurrence of `v` removed (which is the leading `v` whenever
the version starts with `v`); uv and ripgrep require containment of the
full version string; Python requires containment of only the part of the
version strictly before the first `+`. -/
theorem c2_version_probe_rules :
    (∀ v out : String, isVersionMatch RuntimeType.node v out = true ↔ jsTrim out = v) ∧
    (∀ v out : String, isVersionMatch RuntimeType.bun v out = true ↔
      (jsReplaceFirstV v).data <:+: (jsTrim out).data) ∧
    (∀ v : String, v.data.head? = some 'v' → jsReplaceFirstV v = stripLeadingV v) ∧
    (∀ v out : String, isVersionMatch RuntimeType.uv v out = true ↔
      v.data <:+: (jsTrim out).data) ∧
    (∀ v out : String, isVersionMatch RuntimeType.ripgrep v out = true ↔
      v.data <:+: (jsTrim out).data) ∧
    (∀ v out : String, isVersionMatch RuntimeType.python v out = true ↔
      (beforeFirstPlus v).data <:+: (jsTrim out).data) := by
  refine ⟨?_, ?_, ?_, ?_, ?_, ?_⟩
  · intro v out
    simp [isVersionMatch]
  · intro v out
    simp [isVersionMatch, jsIncludes_eq_true_iff]
  · intro v hv
    rcases hd : v.data with _ | ⟨c, rest⟩
    · rw [hd] at hv
      simp at hv
    · rw [hd] at hv
      simp only [List.head?_cons, Option.some.injEq] at hv
      subst hv
      simp only [jsReplaceFirstV, stripLeadingV, hd]
      simp [removeFirstChar]
  · intro v out
    simp [isVersionMatch, jsIncludes_eq_true_iff]
  · intro v out
    simp [isVersionMatch, jsIncludes_eq_true_iff]
  · intro v out
    have hdef : isVersionMatch RuntimeType.python v out =
        jsIncludes (jsTrim out) (pythonSemver v) := rfl
    rw [hdef, pythonSemver_eq_beforeFirstPlus, jsIncludes_eq_true_iff]

/-- C2 witness: the per-kind rules evaluated at concrete versions and
outputs, including the leading-`v` agreement for a real Bun version. -/
theorem c2_witness :
    jsReplaceFirstV "v1.3.5" = "1.3.5" ∧
    isVersionMatch RuntimeType.node "v24.12.0" "v24.12.0\n" = true ∧
    isVersionMatch RuntimeType.python "3.12.12+20251217" "Python 3.12.12" = true := by
  refine ⟨?_, ?_, ?_⟩
  · rw [c2_version_probe_rules.2.2.1 "v1.3.5" (by decide)]
    decide
  · exact (c2_version_probe_rules.1 "v24.12.0" "v24.12.0\n").mpr (by decide)
  · exact (c2_version_probe_rules.2.2.2.2.2 "3.12.12+20251217" "Python 3.12.12").mpr
      (by decide)

/-- C5 counterexample: with a version containing two `+` separators the code
takes `split("+")[1]` — the segment *between* the first and second `+` — as
the release date, not the full substring after the first `+` that the claim
requires. -/
theorem c5_counterexample :
    pythonGetDownloadUrl "3.12.12+20251217+extra" "linux" "x64" =
      Except.ok "https://github.com/astral-sh/python-build-standalone/releases/download/20251217/cpython-3.12.12+20251217-x86_64-unknown-linux-gnu-install_only.tar.gz" ∧
    afterFirstPlus "3.12.12+20251217+extra" = "20251217+extra" ∧
    pythonReleaseDate "3.12.12+20251217+extra" ≠
      afterFirstPlus "3.12.12+20251217+extra" := by
  decide

/-- C5 (amended): the Python download URL has the claimed template over the
recovered semantic version and release date, with release date `20250117`
when the version has no `+`; the semantic-version part is always the
substring before the first `+`, and the release-date part is the segment
between the first `+` and the next `+` — the full remainder exactly when
the version contains a single `+`. -/
theorem c5_python_download_url :
    (∀ version platform arch target : String,
      getPythonPlatformIdentifier platform arch = Except.ok target →
      pythonGetDownloadUrl version platform arch =
        Except.ok ("https://github.com/astral-sh/python-build-standalone/releases/download/" ++
          pythonReleaseDate version ++ "/" ++ ("cpython-" ++ pythonSemver version ++ "+" ++
          pythonReleaseDate version ++ "-" ++ target ++ "-install_only.tar.gz"))) ∧
    (∀ version : String, pythonSemver version = beforeFirstPlus version) ∧
    (∀ version : String, jsIncludes version "+" = false →
      pythonReleaseDate version = "20250117" ∧ pythonSemver version = version) ∧
    (∀ sv rest : String, '+' ∉ sv.data →
      pythonSemver (sv ++ "+" ++ rest) = sv ∧
      pythonReleaseDate (sv ++ "+" ++ rest) = beforeFirstPlus rest) ∧
    (∀ sv rd : String, '+' ∉ sv.data → '+' ∉ rd.data →
      pythonReleaseDate (sv ++ "+" ++ rd) = rd) := by
  refine ⟨?_, pythonSemver_eq_beforeFirstPlus, ?_, ?_, ?_⟩
  · intro version platform arch target hok
    simp only [pythonGetDownloadUrl, hok]
  · intro version h
    constructor
    · rw [pythonReleaseDate, if_neg (by simp [h])]
    · rw [pythonSemver, if_neg (by simp [h])]
  · intro sv rest h
    exact ⟨pythonSemver_append sv rest h, pythonReleaseDate_append sv rest h⟩
  · intro sv rd h1 h2
    rw [pythonReleaseDate_append sv rd h1, beforeFirstPlus]
    rw [takeWhile_all (fun x hx => by
      simp only [bne_iff_ne, ne_eq, decide_eq_true_eq]
      exact fun heq => h2 (heq ▸ hx))]

/-- C5 witness: the amended rule evaluated at the default Python version and
at an explicit two-part split. -/
theorem c5_witness :
    pythonReleaseDate ("3.12.12" ++ "+" ++ "20251217") = "20251217" ∧
    pythonGetDownloadUrl "3.12.12+20251217" "linux" "x64" =
      Except.ok "https://github.com/astral-sh/python-build-standalone/releases/download/20251217/cpython-3.12.12+20251217-x86_64-unknown-linux-gnu-install_only.tar.gz" := by
  constructor
  · exact c5_python_download_url.2.2.2.2 "3.12.12" "20251217" (by decide) (by decide)
  · have h := c5_python_download_url.1 "3.12.12+20251217" "linux" "x64"
      "x86_64-unknown-linux-gnu" (by decide)
    rw [h]
    decide

theorem modifyHead_append_left (f : List Char → List Char) (l₁ l₂ : List (List Char))
    (h : l₁ ≠ []) : (l₁ ++ l₂).modifyHead f = l₁.modifyHead f ++ l₂ := by
  rcases l₁ with _ | ⟨a, t⟩
  · exact absurd rfl h
  · rfl

theorem splitOnP_append_sep (p : Char → Bool) {c : Char} (hc : p c = true)
    (xs ys : List Char) :
    (xs ++ c :: ys).splitOnP p = xs.splitOnP p ++ ys.splitOnP p := by
  induction xs with
  | nil => simp [List.splitOnP_cons, hc, List.splitOnP_nil]
  | cons x t ih =>
    by_cases hx : p x
    · simp [List.splitOnP_cons, hx, ih]
    · rw [List.cons_append, List.splitOnP_cons, if_neg (by simp [hx]), ih,
        List.splitOnP_cons, if_neg (by simp [hx])]
      exact modifyHead_append_left _ _ _ (List.splitOnP_ne_nil p t)

theorem data_single_append (a b : String) (c : Char) :
    (a ++ (⟨[c]⟩ : String) ++ b).data = a.data ++ c :: b.data := by
  rw [String.data_append, String.data_append]
  simp

theorem noProxyEntries_append (a b : String) {c : Char} (hc : isNoProxySep c = true) :
    noProxyEntries (a ++ (⟨[c]⟩ : String) ++ b) = noProxyEntries a ++ noProxyEntries b := by
  unfold noProxyEntries
  rw [data_single_append, splitOnP_append_sep isNoProxySep hc, List.map_append,
    List.filter_append, List.map_append]

theorem elem_append_or {a : String} {l₁ l₂ : List String} :
    (l₁ ++ l₂).elem a = (l₁.elem a || l₂.elem a) := by
  apply Bool.eq_iff_iff.mpr
  simp [List.elem_iff]

theorem isNoProxyMatch_eq_or (u : JsURL) (s : String) :
    isNoProxyMatch u s =
      ((noProxyEntries s).contains "*" ||
        (noProxyEntries s).any
          (noProxyEntryMatches (jsToLower u.hostname) (effectivePort u))) := by
  unfold isNoProxyMatch
  rcases h : noProxyEntries s with _ | ⟨x, xs⟩
  · simp
  · simp only [List.isEmpty_cons, Bool.false_eq_true, if_false]
    by_cases hc : (x :: xs).contains "*" <;> simp [hc]

theorem bool_or_shuffle (p q r s : Bool) :
    ((p || q) || (r || s)) = ((p || r) || (q || s)) := by
  cases p <;> cases q <;> cases r <;> cases s <;> rfl

theorem isNoProxyMatch_append (u : JsURL) (a b : String) {c : Char}
    (hc : isNoProxySep c = true) :
    isNoProxyMatch u (a ++ (⟨[c]⟩ : String) ++ b) =
      (isNoProxyMatch u a || isNoProxyMatch u b) := by
  rw [isNoProxyMatch_eq_or, isNoProxyMatch_eq_or, isNoProxyMatch_eq_or,
    noProxyEntries_append a b hc]
  show ((noProxyEntries a ++ noProxyEntries b).elem "*" || _) = _
  rw [elem_append_or, List.any_append]
  exact bool_or_shuffle _ _ _ _

theorem jsToLower_ne_empty {h : String} (hh : h ≠ "") : jsToLower h ≠ "" := by
  intro hz
  have hd : h.data.map Char.toLower = [] := congrArg String.data hz
  rw [List.map_eq_nil_iff] at hd
  exact hh (String.ext hd)

theorem noProxyEntryMatches_parse_none (hostname port e h : String)
    (hparse : parseNoProxyEntry e = (h, none)) (he : e ≠ "*") (hh : h ≠ "") :
    noProxyEntryMatches hostname port e =
      (if !(startsWithDotOrStar (jsToLower h)) then decide (hostname = jsToLower h)
       else jsEndsWith hostname
         (if startsWithStar (jsToLower h) then (⟨(jsToLower h).data.drop 1⟩ : String)
          else jsToLower h)) := by
  have hlow : jsToLower h ≠ "" := jsToLower_ne_empty hh
  simp only [noProxyEntryMatches, hparse, if_neg he, if_neg hh, if_neg hlow]
  simp

/-- C7: no-proxy matching. An entry list containing the literal `*` matches
every target; commas and whitespace both separate entries (matching a
joined string is the disjunction of matching the parts); an entry whose
parse carries a `:port` suffix matches only when the compared effective
port equals that port exactly; an entry starting with `.` matches exactly
the hostnames ending with the entry, and one starting with `*` exactly the
hostnames ending with the entry minus its `*`; an entry with neither
starting character matches only a hostname equal to it; in particular both
`.example.com` and `*.example.com` match `sub.example.com` and neither
matches `example.com`, and `example.com:8080` matches only on port 8080.
Entry-level statements compare against the target's lowercased hostname and
effective port, exactly the values `isNoProxyMatch` passes to the
entry loop. -/
theorem c7_no_proxy_matching :
    (∀ (u : JsURL) (s : String), "*" ∈ noProxyEntries s → isNoProxyMatch u s = true) ∧
    (∀ (u : JsURL) (a b : String),
      isNoProxyMatch u (a ++ "," ++ b) = (isNoProxyMatch u a || isNoProxyMatch u b) ∧
      isNoProxyMatch u (a ++ " " ++ b) = (isNoProxyMatch u a || isNoProxyMatch u b)) ∧
    (∀ hostname port e h p : String, parseNoProxyEntry e = (h, some p) → p ≠ "" →
      noProxyEntryMatches hostname port e = true → port = p) ∧
    (∀ hostname port e h : String, parseNoProxyEntry e = (h, none) →
      (jsToLower h).data.head? = some '.' →
      (noProxyEntryMatches hostname port e = true ↔
        jsEndsWith hostname (jsToLower h) = true)) ∧
    (∀ hostname port e h : String, parseNoProxyEntry e = (h, none) →
      (jsToLower h).data.head? = some '*' →
      (noProxyEntryMatches hostname port e = true ↔
        jsEndsWith hostname (⟨(jsToLower h).data.drop 1⟩ : String) = true)) ∧
    (∀ hostname port e h : String, parseNoProxyEntry e = (h, none) → h ≠ "" →
      startsWithDotOrStar (jsToLower h) = false →
      (noProxyEntryMatches hostname port e = true ↔ hostname = jsToLower h)) ∧
    (isNoProxyMatch ⟨"https:", "sub.example.com", "", "", ""⟩ ".example.com" = true ∧
     isNoProxyMatch ⟨"https:", "sub.example.com", "", "", ""⟩ "*.example.com" = true ∧
     isNoProxyMatch ⟨"https:", "example.com", "", "", ""⟩ ".example.com" = false ∧
     isNoProxyMatch ⟨"https:", "example.com", "", "", ""⟩ "*.example.com" = false ∧
     isNoProxyMatch ⟨"https:", "example.com", "8080", "", ""⟩ "example.com:8080" = true ∧
     isNoProxyMatch ⟨"https:", "example.com", "", "", ""⟩ "example.com:8080" = false) := by
  refine ⟨?_, ?_, ?_, ?_, ?_, ?_, by decide⟩
  · intro u s hmem
    rw [isNoProxyMatch_eq_or]
    have hc : (noProxyEntries s).contains "*" = true := List.elem_eq_true_of_mem hmem
    rw [hc]
    simp
  · intro u a b
    constructor
    · exact isNoProxyMatch_append u a b (c := ',') (by decide)
    · exact isNoProxyMatch_append u a b (c := ' ') (by decide)
  · intro hostname port e h p hparse hp hmatch
    by_cases he : e = "*"
    · subst he
      rw [show parseNoProxyEntry "*" = ("*", none) from by decide] at hparse
      exact absurd (congrArg Prod.snd hparse) (by simp)
    · simp only [noProxyEntryMatches, hparse, if_neg he] at hmatch
      by_cases hh : h = ""
      · rw [if_pos hh] at hmatch
        exact absurd hmatch (by simp)
      · rw [if_neg hh] at hmatch
        by_cases hpb : (p != "" && p != port) = true
        · rw [if_pos hpb] at hmatch
          exact absurd hmatch (by simp)
        · simp only [Bool.and_eq_true, bne_iff_ne, ne_eq, not_and,
            Decidable.not_not] at hpb
          exact (hpb (by simpa using hp)).symm
  · intro hostname port e h hparse hhead
    have hh : h ≠ "" := by
      intro hz
      subst hz
      simp [jsToLower] at hhead
    have he : e ≠ "*" := by
      intro hz
      subst hz
      rw [show parseNoProxyEntry "*" = ("*", none) from by decide] at hparse
      have h1 : "*" = h := congrArg Prod.fst hparse
      subst h1
      exact absurd hhead (by decide)
    rcases hd : (jsToLower h).data with _ | ⟨c, r⟩
    · rw [hd] at hhead
      exact absurd hhead (by simp)
    · rw [hd] at hhead
      simp only [List.head?_cons, Option.some.injEq] at hhead
      subst hhead
      have hdots : startsWithDotOrStar (jsToLower h) = true := by
        simp [startsWithDotOrStar, hd]
      have hstar : startsWithStar (jsToLower h) = false := by
        simp [startsWithStar, hd]
      rw [noProxyEntryMatches_parse_none hostname port e h hparse he hh, hdots, hstar]
      simp
  · intro hostname port e h hparse hhead
    by_cases he : e = "*"
    · subst he
      rw [show parseNoProxyEntry "*" = ("*", none) from by decide] at hparse
      have h1 : "*" = h := congrArg Prod.fst hparse
      subst h1
      refine iff_of_true ?_ ?_
      · simp [noProxyEntryMatches]
      · have hz : (⟨List.drop 1 (jsToLower "*").data⟩ : String) = (⟨[]⟩ : String) := by
          decide
        rw [hz]
        simp [jsEndsWith]
    · have hh : h ≠ "" := by
        intro hz
        subst hz
        simp [jsToLower] at hhead
      rcases hd : (jsToLower h).data with _ | ⟨c, r⟩
      · rw [hd] at hhead
        exact absurd hhead (by simp)
      · rw [hd] at hhead
        simp only [List.head?_cons, Option.some.injEq] at hhead
        subst hhead
        have hdots : startsWithDotOrStar (jsToLower h) = true := by
          simp [startsWithDotOrStar, hd]
        have hstar : startsWithStar (jsToLower h) = true := by
          simp [startsWithStar, hd]
        rw [noProxyEntryMatches_parse_none hostname port e h hparse he hh, hdots, hstar]
        simp [hd]
  · intro hostname port e h hparse hh hns
    have he : e ≠ "*" := by
      intro hz
      subst hz
      rw [show parseNoProxyEntry "*" = ("*", none) from by decide] at hparse
      have h1 : "*" = h := congrArg Prod.fst hparse
      subst h1
      exact absurd hns (by decide)
    rw [noProxyEntryMatches_parse_none hostname port e h hparse he hh, hns]
    simp

/-- C7 witness: the matching rules applied at concrete targets and no-proxy
strings. -/
theorem c7_witness :
    isNoProxyMatch ⟨"http:", "internal.example.org", "", "", ""⟩ "localhost, *" = true ∧
    isNoProxyMatch ⟨"https:", "a.example.com", "", "", ""⟩
      ("b.com" ++ "," ++ ".example.com") = true ∧
    noProxyEntryMatches "sub.example.com" "443" ".example.com" = true ∧
    noProxyEntryMatches "sub.example.com" "443" "*.example.com" = true ∧
    noProxyEntryMatches "github.com" "443" "github.com" = true := by
  refine ⟨?_, ?_, ?_, ?_, ?_⟩
  · exact c7_no_proxy_matching.1 _ _ (by decide)
  · rw [(c7_no_proxy_matching.2.1 ⟨"https:", "a.example.com", "", "", ""⟩
      "b.com" ".example.com").1]
    decide
  · exact (c7_no_proxy_matching.2.2.2.1 "sub.example.com" "443" ".example.com"
      ".example.com" (by decide) (by decide)).mpr (by decide)
  · exact (c7_no_proxy_matching.2.2.2.2.1 "sub.example.com" "443" "*.example.com"
      "*.example.com" (by decide) (by decide)).mpr (by decide)
  · exact (c7_no_proxy_matching.2.2.2.2.2.1 "github.com" "443" "github.com"
      "github.com" (by decide) (by decide) (by decide)).mpr (by decide)

theorem getEnvValue_pair (env : String → Option String) (up lo : String) :
    getEnvValue env [up, lo] =
      (if truthy (env up) then env up
       else if truthy (env lo) then env lo else none) := by
  cases hup : env up with
  | some v =>
    by_cases hv : v = ""
    · subst hv
      cases hlo : env lo with
      | some w =>
        by_cases hw : w = ""
        · subst hw
          simp [getEnvValue, hup, hlo, truthy]
        · simp [getEnvValue, hup, hlo, truthy, hw]
      | none => simp [getEnvValue, hup, hlo, truthy]
    · simp [getEnvValue, hup, truthy, hv]
  | none =>
    cases hlo : env lo with
    | some w =>
      by_cases hw : w = ""
      · subst hw
        simp [getEnvValue, hup, hlo, truthy]
      · simp [getEnvValue, hup, hlo, truthy, hw]
    | none => simp [getEnvValue, hup, hlo, truthy]

theorem getEnvValue_congr {env env2 : String → Option String} :
    ∀ keys : List String, (∀ k ∈ keys, env k = env2 k) →
      getEnvValue env keys = getEnvValue env2 keys := by
  intro keys
  induction keys with
  | nil => intro _; rfl
  | cons k rest ih =>
    intro h
    have hrest := ih (fun x hx => h x (List.mem_cons_of_mem k hx))
    have hk : env k = env2 k := h k (List.mem_cons_self k rest)
    simp only [getEnvValue, hk]
    cases env2 k with
    | none => exact hrest
    | some v =>
      by_cases hv : v = ""
      · simp [hv, hrest]
      · simp [hv]

/-- C8: per-URL proxy resolution. For each of httpProxy, httpsProxy and
noProxy a non-empty explicit option beats the environment (for any
environment); otherwise the upper-case variable is consulted before the
lower-case one and the first non-empty value wins, with the variants fixed
upper-case-first per key; and whether the httpsProxy or the httpProxy
setting feeds the proxy builder is decided solely by the target URL's
scheme — for an https target the httpProxy setting and its environment
variables are irrelevant. -/
theorem c8_proxy_resolution_order :
    (∀ (o : ProxyOptions) (env : String → Option String) (k : ProxyKey) (v : String),
      optField o k = some v → v ≠ "" → getProxyOption o env k = some v) ∧
    (∀ (o : ProxyOptions) (env : String → Option String) (k : ProxyKey) (up lo : String),
      PROXY_ENV_KEYS k = [up, lo] → truthy (optField o k) = false →
      getProxyOption o env k =
        (if truthy (env up) then env up
         else if truthy (env lo) then env lo else none)) ∧
    (PROXY_ENV_KEYS ProxyKey.httpProxy = ["HTTP_PROXY", "http_proxy"] ∧
     PROXY_ENV_KEYS ProxyKey.httpsProxy = ["HTTPS_PROXY", "https_proxy"] ∧
     PROXY_ENV_KEYS ProxyKey.noProxy = ["NO_PROXY", "no_proxy"]) ∧
    (∀ (o : ProxyOptions) (env : String → Option String) (u : JsURL) (p : String),
      u.protocol = "https:" →
      truthy (getProxyOption o env ProxyKey.noProxy) = false →
      getProxyOption o env ProxyKey.httpsProxy = some p → p ≠ "" →
      getProxyConfigForUrl o env u =
        (buildProxyConfig p u.protocol).map (fun c => some c)) ∧
    (∀ (o : ProxyOptions) (env : String → Option String) (u : JsURL) (p : String),
      u.protocol ≠ "https:" →
      truthy (getProxyOption o env ProxyKey.noProxy) = false →
      getProxyOption o env ProxyKey.httpProxy = some p → p ≠ "" →
      getProxyConfigForUrl o env u =
        (buildProxyConfig p u.protocol).map (fun c => some c)) ∧
    (∀ (o o2 : ProxyOptions) (env env2 : String → Option String) (u : JsURL),
      u.protocol = "https:" →
      o.httpsProxy = o2.httpsProxy → o.noProxy = o2.noProxy →
      (∀ k ∈ ["HTTPS_PROXY", "https_proxy", "NO_PROXY", "no_proxy"], env k = env2 k) →
      getProxyConfigForUrl o env u = getProxyConfigForUrl o2 env2 u) := by
  refine ⟨?_, ?_, ⟨rfl, rfl, rfl⟩, ?_, ?_, ?_⟩
  · intro o env k v hopt hv
    have ht : truthy (optField o k) = true := by
      rw [hopt]
      simp [truthy, hv]
    rw [getProxyOption, if_pos ht]
    exact hopt
  · intro o env k up lo hkeys hf
    rw [getProxyOption, if_neg (by simp [hf]), hkeys]
    exact getEnvValue_pair env up lo
  · intro o env u p hps hnp hopt hp
    have hcond : (truthy (getProxyOption o env ProxyKey.noProxy) &&
        isNoProxyMatch u ((getProxyOption o env ProxyKey.noProxy).getD "")) = false := by
      rw [hnp]
      exact Bool.false_and _
    have htp : truthy (some p) = true := by simp [truthy, hp]
    simp only [getProxyConfigForUrl, hcond, Bool.false_eq_true, reduceIte, hps,
      String.reduceEq, hopt, htp, Bool.not_true]
    simp
  · intro o env u p hps hnp hopt hp
    have hcond : (truthy (getProxyOption o env ProxyKey.noProxy) &&
        isNoProxyMatch u ((getProxyOption o env ProxyKey.noProxy).getD "")) = false := by
      rw [hnp]
      exact Bool.false_and _
    have htp : truthy (some p) = true := by simp [truthy, hp]
    simp only [getProxyConfigForUrl, hcond, Bool.false_eq_true, reduceIte, hps,
      hopt, htp, Bool.not_true]
    simp
  · intro o o2 env env2 u hps ho hn henv
    have hno : getProxyOption o env ProxyKey.noProxy =
        getProxyOption o2 env2 ProxyKey.noProxy := by
      rw [getProxyOption, getProxyOption]
      simp only [optField, hn]
      rw [getEnvValue_congr (PROXY_ENV_KEYS ProxyKey.noProxy)
        (fun k hk => henv k (by
          simp only [PROXY_ENV_KEYS, List.mem_cons, List.not_mem_nil, or_false] at hk
          simp only [List.mem_cons, List.not_mem_nil, or_false]
          tauto))]
    have hhttps : getProxyOption o env ProxyKey.httpsProxy =
        getProxyOption o2 env2 ProxyKey.httpsProxy := by
      rw [getProxyOption, getProxyOption]
      simp only [optField, ho]
      rw [getEnvValue_congr (PROXY_ENV_KEYS ProxyKey.httpsProxy)
        (fun k hk => henv k (by
          simp only [PROXY_ENV_KEYS, List.mem_cons, List.not_mem_nil, or_false] at hk
          simp only [List.mem_cons, List.not_mem_nil, or_false]
          tauto))]
    simp only [getProxyConfigForUrl, hps, hno, hhttps, reduceIte]

/-- C8 witness: the resolution rules applied to a concrete environment in
which only HTTPS_PROXY is set, against an https target, and to an explicit
option overriding the environment. -/
theorem c8_witness :
    getProxyConfigForUrl ⟨none, none, none⟩
      (fun k => if k = "HTTPS_PROXY" then some "proxy.local:8080" else none)
      ⟨"https:", "github.com", "", "", ""⟩ =
      (buildProxyConfig "proxy.local:8080" "https:").map (fun c => some c) ∧
    getProxyOption ⟨some "http://explicit.proxy:3128", none, none⟩
      (fun k => if k = "HTTP_PROXY" then some "http://env.proxy:3128" else none)
      ProxyKey.httpProxy = some "http://explicit.proxy:3128" ∧
    getProxyOption ⟨none, none, none⟩
      (fun k => if k = "HTTPS_PROXY" then some "upper" else some "lower")
      ProxyKey.httpsProxy = some "upper" := by
  refine ⟨?_, ?_, ?_⟩
  · exact c8_proxy_resolution_order.2.2.2.1 ⟨none, none, none⟩ _ _ "proxy.local:8080"
      rfl (by decide) (by decide) (by decide)
  · exact c8_proxy_resolution_order.1 ⟨some "http://explicit.proxy:3128", none, none⟩ _
      ProxyKey.httpProxy "http://explicit.proxy:3128" rfl (by decide)
  · rw [c8_proxy_resolution_order.2.1 ⟨none, none, none⟩ _ ProxyKey.httpsProxy
      "HTTPS_PROXY" "https_proxy" rfl (by decide)]
    decide

theorem parseHostPort_digits (hp : List Char) (h pt : String)
    (hres : parseHostPort hp = some (h, pt)) : pt.data.all Char.isDigit = true := by
  unfold parseHostPort at hres
  repeat' split at hres
  all_goals simp_all
  all_goals (obtain ⟨rfl, rfl⟩ := hres; try decide)
  all_goals simp_all

theorem parseURL_digits (s : String) (u : JsURL) (hres : parseURL s = some u) :
    u.port.data.all Char.isDigit = true := by
  unfold parseURL at hres
  split at hres
  · simp at hres
  · split at hres
    · simp at hres
    · dsimp only at hres
      repeat' split at hres
      all_goals try simp at hres
      all_goals (
        rw [← hres]
        exact parseHostPort_digits _ _ _ (by assumption))

theorem jsNumberNat_fold_digits :
    ∀ (l : List Char), l.all Char.isDigit = true → ∀ (a : Nat),
      ∃ n, (l.foldl (fun acc c =>
        match acc with
        | none => none
        | some n => if c.isDigit then some (n * 10 + (c.toNat - 48)) else none)
        (some a)) = some n := by
  intro l
  induction l with
  | nil => exact fun _ a => ⟨a, rfl⟩
  | cons c t ih =>
    intro hall a
    rw [List.all_cons, Bool.and_eq_true] at hall
    rw [List.foldl_cons]
    show ∃ n, (t.foldl _ (if c.isDigit then some (a * 10 + (c.toNat - 48)) else none)) = some n
    rw [if_pos hall.1]
    exact ih hall.2 _

theorem jsNumberNat_of_digits (s : String) (h : s.data.all Char.isDigit = true) :
    ∃ n, jsNumberNat s = some n :=
  jsNumberNat_fold_digits s.data h 0

/-- C9: building a proxy configuration. A proxy string with no scheme mark
gets the target URL's scheme prepended; the build fails with the
invalid-proxy-URL error when the normalized string does not parse, and with
the unsupported-proxy-protocol error when the parsed scheme is neither
`http:` nor `https:`; on success the config carries the parsed scheme and
hostname, a missing port defaults to 443 for `https:` and 80 for `http:`,
the auth field is present exactly when the proxy URL carries a username or
a password, and the scheme-less `proxy.local:8080` against an https target
yields protocol `https:`, host `proxy.local`, port 8080 and no auth. -/
theorem c9_build_proxy_config :
    (∀ p fb : String, hasSchemeMark p = false →
      normalizeProxyUrl p fb =
        (if jsEndsWith fb ":" then fb else fb ++ ":") ++ "//" ++ p) ∧
    (∀ p fb : String, parseURL (normalizeProxyUrl p fb) = none →
      buildProxyConfig p fb = Except.error ("Invalid proxy URL: " ++ p)) ∧
    (∀ (p fb : String) (u : JsURL), parseURL (normalizeProxyUrl p fb) = some u →
      u.protocol ≠ "http:" → u.protocol ≠ "https:" →
      buildProxyConfig p fb = Except.error ("Unsupported proxy protocol: " ++ u.protocol)) ∧
    (∀ (p fb : String) (u : JsURL), parseURL (normalizeProxyUrl p fb) = some u →
      (u.protocol = "http:" ∨ u.protocol = "https:") →
      ∃ cfg, buildProxyConfig p fb = Except.ok cfg ∧
        cfg.protocol = u.protocol ∧ cfg.host = u.hostname ∧
        (u.port = "" → cfg.port = getDefaultPort u.protocol) ∧
        (cfg.auth = none ↔ (u.username = "" ∧ u.password = ""))) ∧
    (getDefaultPort "https:" = 443 ∧ getDefaultPort "http:" = 80) ∧
    buildProxyConfig "proxy.local:8080" "https:" =
      Except.ok ⟨"https:", "proxy.local", 8080, none⟩ := by
  refine ⟨?_, ?_, ?_, ?_, ⟨by decide, by decide⟩, by decide⟩
  · intro p fb h
    rw [normalizeProxyUrl, if_neg (by simp [h])]
  · intro p fb hnone
    simp only [buildProxyConfig, hnone]
  · intro p fb u hsome h1 h2
    simp only [buildProxyConfig, hsome, if_pos (And.intro h1 h2)]
  · intro p fb u hsome hcase
    have hneg : ¬(u.protocol ≠ "http:" ∧ u.protocol ≠ "https:") := by
      rintro ⟨h1, h2⟩
      rcases hcase with h | h
      · exact h1 h
      · exact h2 h
    by_cases hport : u.port = ""
    · have hbuild : buildProxyConfig p fb = Except.ok
          ⟨u.protocol, u.hostname, getDefaultPort u.protocol,
           if u.username ≠ "" ∨ u.password ≠ "" then some ⟨u.username, u.password⟩
           else none⟩ := by
        simp only [buildProxyConfig, hsome, if_neg hneg]
        rw [if_neg (by simp [hport])]
      refine ⟨_, hbuild, rfl, rfl, fun _ => rfl, ?_⟩
      by_cases h1 : u.username = "" <;> by_cases h2 : u.password = "" <;> simp [h1, h2]
    · obtain ⟨n, hn⟩ := jsNumberNat_of_digits u.port (parseURL_digits _ u hsome)
      have hbuild : buildProxyConfig p fb = Except.ok
          ⟨u.protocol, u.hostname, n,
           if u.username ≠ "" ∨ u.password ≠ "" then some ⟨u.username, u.password⟩
           else none⟩ := by
        simp only [buildProxyConfig, hsome, if_neg hneg]
        rw [if_pos hport, hn]
      refine ⟨_, hbuild, rfl, rfl, fun hc => absurd hc hport, ?_⟩
      by_cases h1 : u.username = "" <;> by_cases h2 : u.password = "" <;> simp [h1, h2]

/-- C9 witness: the builder rules applied at concrete inputs — a scheme-less
proxy string, an unparseable proxy URL, an unsupported scheme, and a
successful parse carrying credentials. -/
theorem c9_witness :
    normalizeProxyUrl "proxy.local:8080" "https:" = "https://proxy.local:8080" ∧
    buildProxyConfig "http://" "https:" = Except.error "Invalid proxy URL: http://" ∧
    buildProxyConfig "ftp://x" "https:" =
      Except.error "Unsupported proxy protocol: ftp:" ∧
    (∃ cfg, buildProxyConfig "http://u:pw@h.example.org" "https:" = Except.ok cfg ∧
      cfg.protocol = "http:" ∧ cfg.port = 80 ∧ cfg.auth ≠ none) := by
  refine ⟨?_, ?_, ?_, ?_⟩
  · rw [c9_build_proxy_config.1 "proxy.local:8080" "https:" (by decide)]
    decide
  · exact c9_build_proxy_config.2.1 "http://" "https:" (by decide)
  · have h := c9_build_proxy_config.2.2.1 "ftp://x" "https:"
      ⟨"ftp:", "x", "", "", ""⟩ (by decide) (by decide) (by decide)
    simpa using h
  · obtain ⟨cfg, hb, hp, hh, hdef, hauth⟩ := c9_build_proxy_config.2.2.2.1
      "http://u:pw@h.example.org" "https:" ⟨"http:", "h.example.org", "", "u", "pw"⟩
      (by decide) (Or.inl rfl)
    refine ⟨cfg, hb, hp, ?_, ?_⟩
    · rw [hdef rfl]
      decide
    · intro hc
      have := hauth.mp hc
      simp at this
